import Mathlib

/-!
Verification of the DTing performance-collection core (`dting/core/collector.py`
and `dting/core/apm.py`): metric extractors with delta state, the sample buffer,
the collection loop, the alert evaluator and the summary statistics.
Machine floats are modelled as exact rationals; cumulative device counters as
integers.  Definitions come first, translated from the source; the theorems
about them follow.
-/

namespace DTing

/-- State carried by `AndroidCollector` between global CPU extractions:
`last_cpu_data` holds the previous `(total_time, idle_time)` reading of
the cumulative `/proc/stat` tick counters, `none` before the first call. -/
structure CpuState where
  last_cpu_data : Option (Int × Int)
deriving DecidableEq, Repr

/-- `AndroidCollector.collect_cpu`, global branch (no process pid), applied to
one parsed `/proc/stat` sample `(total_time, idle_time)`.  With a stored
baseline and a positive total delta it reports
`100 * (total_diff - idle_diff) / total_diff` and stores the new baseline;
otherwise (first call, or non-positive total delta) it stores the new baseline
and reports `0.0`. -/
def collect_cpu (st : CpuState) (total_time idle_time : Int) : Rat × CpuState :=
  match st.last_cpu_data with
  | some (last_total, last_idle) =>
      let total_diff := total_time - last_total
      let idle_diff := idle_time - last_idle
      if 0 < total_diff then
        (100 * ((total_diff : Rat) - (idle_diff : Rat)) / (total_diff : Rat),
         ⟨some (total_time, idle_time)⟩)
      else
        ((0 : Rat), ⟨some (total_time, idle_time)⟩)
  | none => ((0 : Rat), ⟨some (total_time, idle_time)⟩)

/-- One reading of the per-uid network byte counters together with the wall
clock at which it was taken (`current_data` in `collect_network`). -/
structure NetworkData where
  rx_bytes : Int
  tx_bytes : Int
  timestamp : Rat
deriving DecidableEq, Repr

/-- The dictionary returned by `AndroidCollector.collect_network`. -/
structure NetworkResult where
  rx_speed : Rat
  tx_speed : Rat
  rx_total : Rat
  tx_total : Rat
deriving DecidableEq, Repr

/-- State carried between network extractions (`last_network_data`). -/
structure NetworkState where
  last_network_data : Option NetworkData
deriving DecidableEq, Repr

/-- `AndroidCollector.collect_network`, process branch, applied to one summed
reading `(rx_bytes, tx_bytes)` taken at time `now`.  With a stored baseline and
a positive time delta it reports the signed byte deltas divided by the time
delta (KB/s) — the code performs no counter-regression check — and stores the
new baseline; otherwise it stores the new baseline and falls through to the
all-zero result dictionary. -/
def collect_network (st : NetworkState) (rx_bytes tx_bytes : Int) (now : Rat) :
    NetworkResult × NetworkState :=
  let current_data : NetworkData := ⟨rx_bytes, tx_bytes, now⟩
  match st.last_network_data with
  | some last =>
      let time_diff := now - last.timestamp
      if 0 < time_diff then
        (⟨((rx_bytes - last.rx_bytes : Int) : Rat) / time_diff / 1024,
          ((tx_bytes - last.tx_bytes : Int) : Rat) / time_diff / 1024,
          (rx_bytes : Rat) / 1024,
          (tx_bytes : Rat) / 1024⟩,
         ⟨some current_data⟩)
      else
        (⟨0, 0, 0, 0⟩, ⟨some current_data⟩)
  | none => (⟨0, 0, 0, 0⟩, ⟨some current_data⟩)

/-- One iteration of the buffering step inside `DataCollector._collection_loop`:
`data_buffer.append(data)` followed by
`if len(data_buffer) > max_buffer_size: data_buffer.pop(0)`. -/
def buffer_append (max_buffer_size : Nat) (data_buffer : List α) (data : α) : List α :=
  if max_buffer_size < (data_buffer ++ [data]).length then (data_buffer ++ [data]).drop 1
  else data_buffer ++ [data]

/-- One alert dictionary appended to `AppPerformanceMonitor.alerts` by
`_check_alert`.  `direction` is the word interpolated into the message:
`"below"` for fps, `"above"` for every other metric. -/
structure AlertEvent where
  metric : String
  value : Rat
  threshold : Rat
  direction : String
deriving DecidableEq, Repr

/-- The four configurable thresholds read by `_check_alert`, with the config
defaults `alert.cpu_threshold = 80.0`, `alert.memory_threshold = 80.0`,
`alert.fps_threshold = 30.0`, `alert.battery_temp_threshold = 45.0`. -/
structure AlertThresholds where
  cpu_threshold : Rat := 80
  memory_threshold : Rat := 80
  fps_threshold : Rat := 30
  battery_temp_threshold : Rat := 45
deriving DecidableEq, Repr

/-- The `thresholds` dictionary lookup in `_check_alert`: only the four known
metric names have thresholds. -/
def thresholds_lookup (t : AlertThresholds) : String → Option Rat
  | "cpu" => some t.cpu_threshold
  | "memory" => some t.memory_threshold
  | "fps" => some t.fps_threshold
  | "battery_temp" => some t.battery_temp_threshold
  | _ => none

/-- `AppPerformanceMonitor._check_alert`: for a known metric, fps alerts when
the value is below its threshold and every other metric alerts when the value
is above its threshold; an alert dictionary is then appended to the monitor's
`alerts` list.  Unknown metrics and non-alerting values leave the list
unchanged. -/
def check_alert (t : AlertThresholds) (metric : String) (value : Rat)
    (alerts : List AlertEvent) : List AlertEvent :=
  match thresholds_lookup t metric with
  | none => alerts
  | some threshold =>
      let is_alert := if metric = "fps" then value < threshold else threshold < value
      if is_alert then
        alerts ++ [⟨metric, value, threshold,
          if metric = "fps" then "below" else "above"⟩]
      else alerts

/-- `AppPerformanceMonitor.collect_cpu`: the collector result (`none` models a
`None` return from `collect_single`, i.e. a swallowed failure) is defaulted to
`0.0`, then `_check_alert('cpu', ...)` runs, and the value is returned. -/
def apm_collect_cpu (t : AlertThresholds) (collected : Option Rat)
    (alerts : List AlertEvent) : Rat × List AlertEvent :=
  let cpu_usage := collected.getD 0
  (cpu_usage, check_alert t "cpu" cpu_usage alerts)

/-- `AppPerformanceMonitor.collect_fps`: the collector result is defaulted to
`0.0` when `None`, then `_check_alert('fps', ...)` runs, and the value is
returned. -/
def apm_collect_fps (t : AlertThresholds) (collected : Option Rat)
    (alerts : List AlertEvent) : Rat × List AlertEvent :=
  let fps := collected.getD 0
  (fps, check_alert t "fps" fps alerts)

/-- The fields of `PerformanceData` that threshold evaluation would inspect
(`cpu_usage`, `memory_usage`, `fps` default to `0.0`;
`battery_temperature` models the optional `battery_info['temperature']`
entry).  The remaining fields of the source record (`memory_detail`,
`network_usage`, `gpu_usage`, `thermal_info`, `jank_info`) never interact
with alerting and are omitted. -/
structure PerformanceData where
  timestamp : Rat := 0
  cpu_usage : Rat := 0
  memory_usage : Rat := 0
  fps : Rat := 0
  battery_temperature : Option Rat := none
deriving DecidableEq, Repr

/-- The per-monitor mutable state touched by the collection callbacks:
`performance_data` and `alerts` of `AppPerformanceMonitor`. -/
structure ApmState where
  performance_data : List PerformanceData
  alerts : List AlertEvent
deriving DecidableEq, Repr

/-- `AppPerformanceMonitor._on_data_collected`, the only callback the monitor
registers on the collector: it appends the sample to `performance_data`
(and prints statistics every tenth sample, which changes no state). -/
def on_data_collected (st : ApmState) (d : PerformanceData) : ApmState :=
  { st with performance_data := st.performance_data ++ [d] }

/-- The state effect of one iteration of `DataCollector._collection_loop`
under monitoring: the assembled sample `d` is appended to the bounded
`data_buffer`, then each registered callback — for a monitor, exactly
`_on_data_collected` — is invoked with it. -/
def collection_loop_tick (max_buffer_size : Nat) (data_buffer : List PerformanceData)
    (st : ApmState) (d : PerformanceData) : List PerformanceData × ApmState :=
  (buffer_append max_buffer_size data_buffer d, on_data_collected st d)

/-- A value returned by one of the bound collector's methods: a number
(cpu, memory, fps, gpu), a string-keyed table (memory_detail, battery,
thermal) or a network result dictionary. -/
inductive MetricValue where
  | num : Rat → MetricValue
  | table : List (String × Rat) → MetricValue
  | net : NetworkResult → MetricValue
deriving DecidableEq, Repr

/-- The outcomes of the bound collector's eight methods during one
`collect_single` call (the methods themselves are side-effecting; only their
returned values matter to the dispatch). -/
structure CollectorMethods where
  cpu : Rat
  memory : Rat
  memory_detail : List (String × Rat)
  network : NetworkResult
  fps : Rat
  battery : List (String × Rat)
  gpu : Rat
  thermal : List (String × Rat)
deriving DecidableEq, Repr

/-- The `try` block of `DataCollector.collect_single`: the if/elif chain over
the eight known targets calls the matching collector method; any other target
raises `ValueError(f"Unknown target: ...")`, modelled as `Except.error`. -/
def collect_single_try (c : CollectorMethods) (target : String) :
    Except String MetricValue :=
  if target = "cpu" then .ok (.num c.cpu)
  else if target = "memory" then .ok (.num c.memory)
  else if target = "memory_detail" then .ok (.table c.memory_detail)
  else if target = "network" then .ok (.net c.network)
  else if target = "fps" then .ok (.num c.fps)
  else if target = "battery" then .ok (.table c.battery)
  else if target = "gpu" then .ok (.num c.gpu)
  else if target = "thermal" then .ok (.table c.thermal)
  else .error ("Unknown target: " ++ target)

/-- `DataCollector.collect_single` as its caller sees it: the blanket
`except Exception` handler catches whatever the `try` block raises — including
the unknown-target `ValueError` — prints, and returns `None`. -/
def collect_single (c : CollectorMethods) (target : String) : Option MetricValue :=
  match collect_single_try c target with
  | .ok value => some value
  | .error _ => none

/-- An all-zero collector, used to exercise the dispatch on concrete targets. -/
def zeroCollectorMethods : CollectorMethods :=
  ⟨0, 0, [], ⟨0, 0, 0, 0⟩, 0, [], 0, []⟩

/-- The loop-local state of a bounded `_collection_loop` run: wall-clock time
elapsed since `start_time`, number of samples collected so far, and the
`is_collecting` flag. -/
structure LoopState where
  elapsed : Rat
  samples : Nat
  is_collecting : Bool
deriving DecidableEq, Repr

/-- One evaluation of the `while self.is_collecting` loop of
`DataCollector._collection_loop` with a positive bound `duration`, under the
idealisation that a tick's work plus `time.sleep(interval)` advances the clock
by exactly `interval`.  If the duration has elapsed the loop breaks and the
trailing `self.is_collecting = False` runs (no partial tick); otherwise one
sample is collected and the clock advances.  An idle state is inert. -/
def collection_loop_step (interval duration : Rat) (s : LoopState) : LoopState :=
  if s.is_collecting then
    if duration ≤ s.elapsed then { s with is_collecting := false }
    else ⟨s.elapsed + interval, s.samples + 1, true⟩
  else s

/-- The dictionary returned by `AppPerformanceMonitor._calculate_stats`. -/
structure StatsResult where
  min : Rat
  max : Rat
  avg : Rat
  count : Nat
deriving DecidableEq, Repr

/-- `AppPerformanceMonitor._calculate_stats`: all-zero on the empty list,
otherwise the list's minimum, maximum, `sum / len` and length. -/
def calculate_stats (values : List Rat) : StatsResult :=
  match values with
  | [] => ⟨0, 0, 0, 0⟩
  | v :: vs =>
      ⟨vs.foldl min v, vs.foldl max v,
       (v :: vs).sum / ((v :: vs).length : Rat), (v :: vs).length⟩

/-- The series `get_summary` builds for CPU:
`[d.cpu_usage for d in performance_data if d.cpu_usage > 0]`. -/
def get_summary_cpu_values (performance_data : List PerformanceData) : List Rat :=
  (performance_data.filter (fun d => decide (0 < d.cpu_usage))).map
    (fun d => d.cpu_usage)

/-- The series `get_summary` builds for memory. -/
def get_summary_memory_values (performance_data : List PerformanceData) : List Rat :=
  (performance_data.filter (fun d => decide (0 < d.memory_usage))).map
    (fun d => d.memory_usage)

/-- The series `get_summary` builds for FPS. -/
def get_summary_fps_values (performance_data : List PerformanceData) : List Rat :=
  (performance_data.filter (fun d => decide (0 < d.fps))).map (fun d => d.fps)

/-- One line of `dumpsys gfxinfo` output as `collect_fps` classifies it:
the `Total frames rendered:` header, a line whose first token parses as a
float `v`, or any other line (blank, or one whose first token fails to
parse). -/
inductive GfxLine where
  | header
  | value (v : Rat)
  | junk
deriving DecidableEq, Repr

/-- The frame-time gathering loop of `AndroidCollector.collect_fps`: the
header switches `in_frame_stats` on and skips to the next line; a parsed
value is appended when the flag is set and the value is positive; after any
non-skipped line the loop breaks once 120 durations are retained.  (A line
whose parse raises hits `continue`, which skips that iteration's length
check; since the list only grows on value lines, which check immediately,
this is observably the same as checking.) -/
def frame_times_loop : List GfxLine → Bool → List Rat → List Rat
  | [], _, frame_times => frame_times
  | .header :: ls, _, frame_times => frame_times_loop ls true frame_times
  | .value v :: ls, in_frame_stats, frame_times =>
      let ft2 := if in_frame_stats ∧ 0 < v then frame_times ++ [v] else frame_times
      if 120 ≤ ft2.length then ft2 else frame_times_loop ls in_frame_stats ft2
  | .junk :: ls, in_frame_stats, frame_times =>
      if 120 ≤ frame_times.length then frame_times
      else frame_times_loop ls in_frame_stats frame_times

/-- `AndroidCollector.collect_fps` on parsed `gfxinfo` output: with no
retained duration it returns `0.0`; otherwise it averages the most recent 60
retained durations (`frame_times[-60:]`), converts to `1000 / avg` and caps
the result at 60. -/
def collect_fps (lines : List GfxLine) : Rat :=
  let frame_times := frame_times_loop lines false []
  if frame_times = [] then 0
  else
    let recent := frame_times.drop (frame_times.length - 60)
    let avg_frame_time := recent.sum / (recent.length : Rat)
    if 0 < avg_frame_time then min (1000 / avg_frame_time) 60 else 0

/-- The control-plane state of a `DataCollector`: the `is_collecting` flag and
the number of collection loops (background threads) started so far. -/
structure CollectorCtl where
  is_collecting : Bool
  loops_started : Nat
deriving DecidableEq, Repr

/-- `DataCollector.start_continuous_collection`: an early return when already
collecting, otherwise set the flag and start one new collection loop. -/
def start_continuous_collection (s : CollectorCtl) : CollectorCtl :=
  if s.is_collecting then s
  else ⟨true, s.loops_started + 1⟩

/-- `DataCollector.stop_continuous_collection`: clear the flag and join the
loop if one exists — a total operation that never raises and starts nothing. -/
def stop_continuous_collection (s : CollectorCtl) : CollectorCtl :=
  { s with is_collecting := false }

end DTing

namespace DTing

/-- C1: the Android global CPU extractor: the first call returns 0.0 and only
records the baseline; a second call observing `(total2, idle2)` with
`total2 > total1` returns `100 * ((total2-total1) - (idle2-idle1)) / (total2-total1)`
and stores `(total2, idle2)` as the new baseline. -/
theorem collect_cpu_two_calls (t1 i1 t2 i2 : Int) (h : t1 < t2) :
    (collect_cpu ⟨none⟩ t1 i1).1 = 0 ∧
    (collect_cpu ⟨none⟩ t1 i1).2 = ⟨some (t1, i1)⟩ ∧
    (collect_cpu (collect_cpu ⟨none⟩ t1 i1).2 t2 i2).1
      = 100 * (((t2 - t1 : Int) : Rat) - ((i2 - i1 : Int) : Rat)) / ((t2 - t1 : Int) : Rat) ∧
    (collect_cpu (collect_cpu ⟨none⟩ t1 i1).2 t2 i2).2 = ⟨some (t2, i2)⟩ := by
  refine ⟨rfl, rfl, ?_, ?_⟩ <;>
    simp [collect_cpu, show 0 < t2 - t1 by omega]

/-- Witness for C1 at the spec's own scenario `(100,10) → (200,20)`. -/
theorem collect_cpu_two_calls_witness :
    (collect_cpu ⟨none⟩ 100 10).1 = 0 ∧
    (collect_cpu ⟨none⟩ 100 10).2 = ⟨some (100, 10)⟩ ∧
    (collect_cpu (collect_cpu ⟨none⟩ 100 10).2 200 20).1
      = 100 * (((200 - 100 : Int) : Rat) - ((20 - 10 : Int) : Rat)) / ((200 - 100 : Int) : Rat) ∧
    (collect_cpu (collect_cpu ⟨none⟩ 100 10).2 200 20).2 = ⟨some (200, 20)⟩ :=
  collect_cpu_two_calls 100 10 200 20 (by decide)

/-- C2 fails on the code: `collect_network` performs no counter-regression
check.  With baseline `rx_bytes = 2048` at time 0 and a regressed reading
`rx_bytes = 0` at time 1, the reported `rx_speed` is `-2` KB/s — a negative
rate is returned, not the neutral value. -/
theorem collect_network_regression_counterexample :
    ((0 : Int) < 2048) ∧
    (collect_network ⟨some ⟨2048, 0, 0⟩⟩ 0 0 1).1.rx_speed = -2 ∧
    ¬ (collect_network ⟨some ⟨2048, 0, 0⟩⟩ 0 0 1).1.rx_speed = 0 := by
  refine ⟨by decide, ?_, ?_⟩ <;> norm_num [collect_network]

/-- C2 amended: only the CPU extractor neutralises a regression, and only of
its total counter: when `total2 ≤ total1` it returns `0.0` and resets the
baseline to the new reading.  The network extractor has no regression check:
with a positive time delta a regressed rx byte counter yields a strictly
negative `rx_speed`, while the baseline is still reset to the new reading. -/
theorem counter_regression_behavior (t1 i1 t2 i2 : Int) (hcpu : t2 ≤ t1)
    (last : NetworkData) (rx tx : Int) (now : Rat)
    (hnow : last.timestamp < now) (hrx : rx < last.rx_bytes) :
    collect_cpu ⟨some (t1, i1)⟩ t2 i2 = ((0 : Rat), ⟨some (t2, i2)⟩) ∧
    (collect_network ⟨some last⟩ rx tx now).1.rx_speed < 0 ∧
    (collect_network ⟨some last⟩ rx tx now).2 = ⟨some ⟨rx, tx, now⟩⟩ := by
  refine ⟨?_, ?_, ?_⟩
  · simp [collect_cpu, show ¬ (0 < t2 - t1) by omega]
  · have hd : (0 : Rat) < now - last.timestamp := by linarith
    have hneg : ((rx - last.rx_bytes : Int) : Rat) < 0 := by
      exact_mod_cast show (rx - last.rx_bytes : Int) < 0 by omega
    simp only [collect_network, if_pos hd]
    exact div_neg_of_neg_of_pos (div_neg_of_neg_of_pos hneg hd) (by norm_num)
  · simp [collect_network, hnow]

/-- Witness for the amended C2: total ticks regress `300 → 200` (CPU returns
0 and rebases); rx bytes regress `2048 → 0` over one second (network reports
a negative speed and rebases). -/
theorem counter_regression_behavior_witness :
    collect_cpu ⟨some (300, 30)⟩ 200 20 = ((0 : Rat), ⟨some (200, 20)⟩) ∧
    (collect_network ⟨some ⟨2048, 0, 0⟩⟩ 0 0 1).1.rx_speed < 0 ∧
    (collect_network ⟨some ⟨2048, 0, 0⟩⟩ 0 0 1).2 = ⟨some ⟨0, 0, 1⟩⟩ :=
  counter_regression_behavior 300 30 200 20 (by decide) ⟨2048, 0, 0⟩ 0 0 1
    (by decide) (by decide)

/-- Each buffering step either appends at the tail, or appends at the tail and
evicts exactly the head element. -/
theorem buffer_append_tail_head (cap : Nat) (buf : List α) (x : α) :
    buffer_append cap buf x = buf ++ [x] ∨
    buffer_append cap buf x = (buf ++ [x]).drop 1 := by
  by_cases h : cap < (buf ++ [x]).length
  · exact Or.inr (if_pos h)
  · exact Or.inl (if_neg h)

/-- Closed form of repeated buffering: starting from an accumulator of length
at most the capacity, feeding a list of samples leaves exactly the most recent
`cap` elements of the concatenation. -/
theorem buffer_append_foldl (cap : Nat) (xs : List α) :
    ∀ acc : List α, acc.length ≤ cap →
      xs.foldl (buffer_append cap) acc
        = (acc ++ xs).drop ((acc ++ xs).length - cap) := by
  induction xs with
  | nil =>
      intro acc hacc
      simp [Nat.sub_eq_zero_of_le (by simpa using hacc)]
  | cons x xs ih =>
      intro acc hacc
      have hstep : buffer_append cap acc x
          = (acc ++ [x]).drop ((acc ++ [x]).length - cap) := by
        by_cases h : cap < (acc ++ [x]).length
        · rw [buffer_append, if_pos h]
          have hlen : (acc ++ [x]).length - cap = 1 := by
            simp only [List.length_append, List.length_singleton] at h ⊢
            omega
          rw [hlen]
        · rw [buffer_append, if_neg h]
          have hlen : (acc ++ [x]).length - cap = 0 := by omega
          rw [hlen, List.drop_zero]
      have hlen2 : (buffer_append cap acc x).length ≤ cap := by
        rw [hstep, List.length_drop]
        simp only [List.length_append, List.length_singleton]
        omega
      have hdle : (acc ++ [x]).length - cap ≤ (acc ++ [x]).length := Nat.sub_le _ _
      calc (x :: xs).foldl (buffer_append cap) acc
          = xs.foldl (buffer_append cap) (buffer_append cap acc x) := by
            rw [List.foldl_cons]
        _ = ((buffer_append cap acc x) ++ xs).drop
              (((buffer_append cap acc x) ++ xs).length - cap) := ih _ hlen2
        _ = (acc ++ x :: xs).drop ((acc ++ x :: xs).length - cap) := by
            rw [hstep]
            rw [← List.drop_append_of_le_length hdle, List.drop_drop]
            rw [List.append_cons acc x xs]
            congr 1
            simp only [List.length_drop, List.length_append, List.length_singleton,
              List.length_cons]
            omega

/-- C3: buffering never exceeds the configured capacity, inserts only at the
tail, evicts only at the head, and after `cap + k` appends starting from an
empty buffer it holds exactly the most recent `cap` samples in their original
order. -/
theorem buffer_capacity_invariant (cap k : Nat) (xs : List α) (h : xs.length = cap + k) :
    (xs.foldl (buffer_append cap) []).length ≤ cap ∧
    xs.foldl (buffer_append cap) [] = xs.drop k ∧
    (∀ buf : List α, ∀ x : α, buffer_append cap buf x = buf ++ [x] ∨
      buffer_append cap buf x = (buf ++ [x]).drop 1) := by
  have hfold := buffer_append_foldl cap xs [] (by simp)
  simp only [List.nil_append] at hfold
  refine ⟨?_, ?_, fun buf x => buffer_append_tail_head cap buf x⟩
  · rw [hfold, List.length_drop]
    omega
  · rw [hfold, h]
    congr 1
    omega

/-- Witness for C3: capacity 2, four appends keep the last two in order. -/
theorem buffer_capacity_invariant_witness :
    (([1, 2, 3, 4] : List Nat).foldl (buffer_append 2) []).length ≤ 2 ∧
    ([1, 2, 3, 4] : List Nat).foldl (buffer_append 2) [] = [1, 2, 3, 4].drop 2 ∧
    (∀ buf : List Nat, ∀ x : Nat, buffer_append 2 buf x = buf ++ [x] ∨
      buffer_append 2 buf x = (buf ++ [x]).drop 1) :=
  buffer_capacity_invariant 2 2 [1, 2, 3, 4] (by decide)

/-- C4 fails on the code: a tick of the continuous collection loop never
evaluates thresholds.  Here a sample with CPU at 95% — over the default
threshold of 80% — goes through a full tick and the alerts list stays empty:
no alert event is appended. -/
theorem collection_loop_no_alert_counterexample :
    ({} : AlertThresholds).cpu_threshold < 95 ∧
    (collection_loop_tick 1000 [] ⟨[], []⟩ { cpu_usage := 95 }).2.alerts = [] := by
  exact ⟨by norm_num [AlertThresholds.cpu_threshold], rfl⟩

/-- C4 amended: the continuous collection loop's tick leaves the alerts list
untouched (its only registered callback appends the sample to
`performance_data`); threshold evaluation happens instead on every call of the
one-shot collection methods, where a value over its threshold appends a new
alert event each time — a repeated call with the value still over threshold
appends again, so repeats are not suppressed. -/
theorem alert_evaluation_per_call (t : AlertThresholds) (cap : Nat)
    (buf : List PerformanceData) (st : ApmState) (d : PerformanceData)
    (v : Rat) (alerts : List AlertEvent) (hv : t.cpu_threshold < v) :
    (collection_loop_tick cap buf st d).2.alerts = st.alerts ∧
    (apm_collect_cpu t (some v) alerts).2
      = alerts ++ [⟨"cpu", v, t.cpu_threshold, "above"⟩] ∧
    (apm_collect_cpu t (some v) (apm_collect_cpu t (some v) alerts).2).2
      = alerts ++ [⟨"cpu", v, t.cpu_threshold, "above"⟩,
                   ⟨"cpu", v, t.cpu_threshold, "above"⟩] := by
  refine ⟨rfl, ?_, ?_⟩ <;>
    simp [apm_collect_cpu, check_alert, thresholds_lookup, hv]

/-- Witness for the amended C4 at the default thresholds with CPU at 95%. -/
theorem alert_evaluation_per_call_witness :
    (collection_loop_tick 1000 [] ⟨[], []⟩ { cpu_usage := 95 }).2.alerts = [] ∧
    (apm_collect_cpu {} (some 95) []).2
      = [] ++ [⟨"cpu", 95, ({} : AlertThresholds).cpu_threshold, "above"⟩] ∧
    (apm_collect_cpu {} (some 95) (apm_collect_cpu {} (some 95) []).2).2
      = [] ++ [⟨"cpu", 95, ({} : AlertThresholds).cpu_threshold, "above"⟩,
               ⟨"cpu", 95, ({} : AlertThresholds).cpu_threshold, "above"⟩] :=
  alert_evaluation_per_call {} 1000 [] ⟨[], []⟩ { cpu_usage := 95 } 95 []
    (by norm_num [AlertThresholds.cpu_threshold])

/-- C10: when the collector's fps extraction fails (`collect_single` returned
`None`), `AppPerformanceMonitor.collect_fps` reports the sentinel `0.0` and,
whenever the configured fps threshold is positive, appends a new
below-threshold alert — the sentinel is not excluded from alert evaluation. -/
theorem apm_collect_fps_none_alert (t : AlertThresholds) (alerts : List AlertEvent)
    (h : 0 < t.fps_threshold) :
    apm_collect_fps t none alerts
      = (0, alerts ++ [⟨"fps", 0, t.fps_threshold, "below"⟩]) := by
  simp [apm_collect_fps, check_alert, thresholds_lookup, h]

/-- Witness for C10 at the default fps threshold of 30. -/
theorem apm_collect_fps_none_alert_witness :
    apm_collect_fps {} none []
      = (0, [] ++ [⟨"fps", 0, ({} : AlertThresholds).fps_threshold, "below"⟩]) :=
  apm_collect_fps_none_alert {} [] (by norm_num [AlertThresholds.fps_threshold])

/-- C5 fails on the code: the unknown-target `ValueError` raised inside
`collect_single` is caught by the method's own blanket handler, so the caller
receives `None` — indistinguishable from any other swallowed failure — rather
than a surfaced error, and the APM wrapper then defaults it to the neutral
value `0.0`. -/
theorem collect_single_unknown_counterexample :
    collect_single_try zeroCollectorMethods "bogus"
      = .error ("Unknown target: " ++ "bogus") ∧
    collect_single zeroCollectorMethods "bogus" = none ∧
    (apm_collect_cpu {} (collect_single zeroCollectorMethods "bogus"
        |>.map fun _ => 0) []).1 = 0 := by
  exact ⟨rfl, rfl, rfl⟩

/-- C5 amended: for a target outside the eight known metric names the dispatch
raises `ValueError`, but `collect_single`'s own exception handler catches it
and the caller receives `None`; the rejection is not propagated. -/
theorem collect_single_unknown_returns_none (c : CollectorMethods) (target : String)
    (h1 : target ≠ "cpu") (h2 : target ≠ "memory") (h3 : target ≠ "memory_detail")
    (h4 : target ≠ "network") (h5 : target ≠ "fps") (h6 : target ≠ "battery")
    (h7 : target ≠ "gpu") (h8 : target ≠ "thermal") :
    collect_single_try c target = .error ("Unknown target: " ++ target) ∧
    collect_single c target = none := by
  have htry : collect_single_try c target = .error ("Unknown target: " ++ target) := by
    simp [collect_single_try, h1, h2, h3, h4, h5, h6, h7, h8]
  exact ⟨htry, by simp [collect_single, htry]⟩

/-- Witness for the amended C5 at the concrete target `"bogus"`. -/
theorem collect_single_unknown_returns_none_witness :
    collect_single_try zeroCollectorMethods "bogus"
      = .error ("Unknown target: " ++ "bogus") ∧
    collect_single zeroCollectorMethods "bogus" = none :=
  collect_single_unknown_returns_none zeroCollectorMethods "bogus"
    (by decide) (by decide) (by decide) (by decide)
    (by decide) (by decide) (by decide) (by decide)

/-- An idle loop state is a fixed point of the loop step. -/
theorem collection_loop_step_idle (I D : Rat) (s : LoopState)
    (h : s.is_collecting = false) : collection_loop_step I D s = s := by
  simp [collection_loop_step, h]

/-- Run invariant: the elapsed clock is always `samples * interval`, and the
sample count never exceeds `⌈duration / interval⌉`. -/
theorem collection_loop_invariant (I D : Rat) (hI : 0 < I) (hD : 0 < D) (n : Nat) :
    ((collection_loop_step I D)^[n] ⟨0, 0, true⟩).elapsed
        = (((collection_loop_step I D)^[n] ⟨0, 0, true⟩).samples : Rat) * I ∧
    ((((collection_loop_step I D)^[n] ⟨0, 0, true⟩).samples : Int) ≤ ⌈D / I⌉) := by
  induction n with
  | zero =>
      refine ⟨by simp, ?_⟩
      simpa using Int.ceil_nonneg (div_pos hD hI).le
  | succ n ih =>
      obtain ⟨h1, h2⟩ := ih
      rw [Function.iterate_succ_apply']
      by_cases hc : ((collection_loop_step I D)^[n] ⟨0, 0, true⟩).is_collecting = true
      · by_cases hde : D ≤ ((collection_loop_step I D)^[n] ⟨0, 0, true⟩).elapsed
        · simp only [collection_loop_step, hc, if_true, hde]
          exact ⟨h1, h2⟩
        · simp only [collection_loop_step, hc, if_true, if_neg hde]
          constructor
          · rw [h1]
            push_cast
            ring
          · have hlt : (((collection_loop_step I D)^[n] ⟨0, 0, true⟩).samples : Rat)
                < D / I := by
              rw [lt_div_iff₀ hI]
              rw [← h1]
              exact lt_of_not_le hde
            have hceil : ((((collection_loop_step I D)^[n] ⟨0, 0, true⟩).samples : Nat) : Int)
                < ⌈D / I⌉ := by
              rw [Int.lt_ceil]
              push_cast
              exact hlt
            push_cast
            omega
      · have hcf : ((collection_loop_step I D)^[n] ⟨0, 0, true⟩).is_collecting = false := by
          simpa using hc
        rw [collection_loop_step_idle I D _ hcf]
        exact ⟨h1, h2⟩

/-- While the loop is still running after `n` steps, every step so far was a
tick: the sample count equals `n`. -/
theorem collection_loop_collecting_samples (I D : Rat) (n : Nat)
    (h : ((collection_loop_step I D)^[n] ⟨0, 0, true⟩).is_collecting = true) :
    ((collection_loop_step I D)^[n] ⟨0, 0, true⟩).samples = n := by
  induction n with
  | zero => simp
  | succ n ih =>
      rw [Function.iterate_succ_apply'] at h ⊢
      by_cases hc : ((collection_loop_step I D)^[n] ⟨0, 0, true⟩).is_collecting = true
      · by_cases hde : D ≤ ((collection_loop_step I D)^[n] ⟨0, 0, true⟩).elapsed
        · simp [collection_loop_step, hc, hde] at h
        · simp [collection_loop_step, hc, hde, ih hc]
      · have hcf : ((collection_loop_step I D)^[n] ⟨0, 0, true⟩).is_collecting = false := by
          simpa using hc
        rw [collection_loop_step_idle I D _ hcf] at h
        rw [hcf] at h
        exact absurd h (by simp)

/-- Once the loop has gone idle, no further step changes anything. -/
theorem collection_loop_frozen (I D : Rat) (n : Nat)
    (h : ((collection_loop_step I D)^[n] ⟨0, 0, true⟩).is_collecting = false) (m : Nat) :
    (collection_loop_step I D)^[n + m] ⟨0, 0, true⟩
      = (collection_loop_step I D)^[n] ⟨0, 0, true⟩ := by
  induction m with
  | zero => rfl
  | succ m ih =>
      have hnm : n + (m + 1) = (n + m) + 1 := by omega
      rw [hnm, Function.iterate_succ_apply', ih]
      exact collection_loop_step_idle I D _ h

/-- A bounded run goes idle within `⌈D / I⌉ + 1` loop evaluations. -/
theorem collection_loop_reaches_idle (I D : Rat) (hI : 0 < I) (hD : 0 < D) :
    ((collection_loop_step I D)^[⌈D / I⌉.toNat + 1] ⟨0, 0, true⟩).is_collecting
      = false := by
  by_contra h
  have h' : ((collection_loop_step I D)^[⌈D / I⌉.toNat + 1]
      ⟨0, 0, true⟩).is_collecting = true := by
    simpa using h
  have hs := collection_loop_collecting_samples I D _ h'
  have hinv := (collection_loop_invariant I D hI hD (⌈D / I⌉.toNat + 1)).2
  rw [hs] at hinv
  have hpos : 0 < ⌈D / I⌉ := Int.ceil_pos.mpr (div_pos hD hI)
  have htn : (⌈D / I⌉.toNat : Int) = ⌈D / I⌉ := Int.toNat_of_nonneg hpos.le
  push_cast at hinv
  omega

/-- C6: a bounded run with duration `D > 0` and interval `I > 0` collects at
most `⌈D / I⌉ + 1` samples, is idle (`is_collecting` false) after
`⌈D / I⌉ + 1` loop evaluations, and from then on no further tick fires. -/
theorem bounded_duration_run (I D : Rat) (hI : 0 < I) (hD : 0 < D) :
    (∀ n : Nat, (((collection_loop_step I D)^[n] ⟨0, 0, true⟩).samples : Int)
      ≤ ⌈D / I⌉ + 1) ∧
    ((collection_loop_step I D)^[⌈D / I⌉.toNat + 1] ⟨0, 0, true⟩).is_collecting
      = false ∧
    (∀ m : Nat, (collection_loop_step I D)^[⌈D / I⌉.toNat + 1 + m] ⟨0, 0, true⟩
      = (collection_loop_step I D)^[⌈D / I⌉.toNat + 1] ⟨0, 0, true⟩) := by
  refine ⟨fun n => ?_, collection_loop_reaches_idle I D hI hD, fun m =>
    collection_loop_frozen I D _ (collection_loop_reaches_idle I D hI hD) m⟩
  have := (collection_loop_invariant I D hI hD n).2
  omega

/-- Witness for C6 at interval 1, duration 3. -/
theorem bounded_duration_run_witness :
    (∀ n : Nat, (((collection_loop_step 1 3)^[n] ⟨0, 0, true⟩).samples : Int)
      ≤ ⌈(3 : Rat) / 1⌉ + 1) ∧
    ((collection_loop_step 1 3)^[⌈(3 : Rat) / 1⌉.toNat + 1] ⟨0, 0, true⟩).is_collecting
      = false ∧
    (∀ m : Nat, (collection_loop_step 1 3)^[⌈(3 : Rat) / 1⌉.toNat + 1 + m] ⟨0, 0, true⟩
      = (collection_loop_step 1 3)^[⌈(3 : Rat) / 1⌉.toNat + 1] ⟨0, 0, true⟩) :=
  bounded_duration_run 1 3 (by norm_num) (by norm_num)

/-- A left fold of `min` over a list is a lower bound of the seed and every
element. -/
theorem foldl_min_le (vs : List Rat) : ∀ v : Rat, ∀ x ∈ v :: vs, vs.foldl min v ≤ x := by
  induction vs with
  | nil =>
      intro v x hx
      simp only [List.mem_singleton] at hx
      simp [hx]
  | cons w ws ih =>
      intro v x hx
      simp only [List.foldl_cons]
      rcases List.mem_cons.mp hx with rfl | hx'
      · exact le_trans (ih (min x w) _ (List.mem_cons_self _ _)) (min_le_left x w)
      rcases List.mem_cons.mp hx' with rfl | hx''
      · exact le_trans (ih (min v x) _ (List.mem_cons_self _ _)) (min_le_right v x)
      · exact ih (min v w) x (List.mem_cons_of_mem _ hx'')

/-- A left fold of `min` over a list is the seed or one of the elements. -/
theorem foldl_min_mem (vs : List Rat) : ∀ v : Rat, vs.foldl min v ∈ v :: vs := by
  induction vs with
  | nil => intro v; simp
  | cons w ws ih =>
      intro v
      simp only [List.foldl_cons]
      rcases List.mem_cons.mp (ih (min v w)) with h | h
      · rcases min_choice v w with hm | hm <;> rw [h, hm]
        · exact List.mem_cons_self _ _
        · exact List.mem_cons_of_mem _ (List.mem_cons_self _ _)
      · exact List.mem_cons_of_mem _ (List.mem_cons_of_mem _ h)

/-- A left fold of `max` over a list is an upper bound of the seed and every
element. -/
theorem foldl_max_ge (vs : List Rat) : ∀ v : Rat, ∀ x ∈ v :: vs, x ≤ vs.foldl max v := by
  induction vs with
  | nil =>
      intro v x hx
      simp only [List.mem_singleton] at hx
      simp [hx]
  | cons w ws ih =>
      intro v x hx
      simp only [List.foldl_cons]
      rcases List.mem_cons.mp hx with rfl | hx'
      · exact le_trans (le_max_left x w) (ih (max x w) _ (List.mem_cons_self _ _))
      rcases List.mem_cons.mp hx' with rfl | hx''
      · exact le_trans (le_max_right v x) (ih (max v x) _ (List.mem_cons_self _ _))
      · exact ih (max v w) x (List.mem_cons_of_mem _ hx'')

/-- A left fold of `max` over a list is the seed or one of the elements. -/
theorem foldl_max_mem (vs : List Rat) : ∀ v : Rat, vs.foldl max v ∈ v :: vs := by
  induction vs with
  | nil => intro v; simp
  | cons w ws ih =>
      intro v
      simp only [List.foldl_cons]
      rcases List.mem_cons.mp (ih (max v w)) with h | h
      · rcases max_choice v w with hm | hm <;> rw [h, hm]
        · exact List.mem_cons_self _ _
        · exact List.mem_cons_of_mem _ (List.mem_cons_self _ _)
      · exact List.mem_cons_of_mem _ (List.mem_cons_of_mem _ h)

/-- On a series of non-negative values, keeping the strictly positive entries
is the same as discarding exactly the entries equal to the zero sentinel. -/
theorem filter_pos_map_eq (f : PerformanceData → Rat) (pd : List PerformanceData)
    (h : ∀ d ∈ pd, 0 ≤ f d) :
    (pd.filter (fun d => decide (0 < f d))).map f
      = (pd.map f).filter (fun x => decide (¬ x = 0)) := by
  induction pd with
  | nil => rfl
  | cons d pd ih =>
      have hd := h d (List.mem_cons_self d pd)
      have hrest : ∀ x ∈ pd, 0 ≤ f x := fun x hx => h x (List.mem_cons_of_mem d hx)
      by_cases hz : f d = 0
      · simp [List.filter_cons, List.map_cons, hz, ih hrest]
      · have hpos : 0 < f d := lt_of_le_of_ne hd (Ne.symm hz)
        simp [List.filter_cons, List.map_cons, hpos, hz, ih hrest]

/-- C7: `_calculate_stats` returns all zeros with count 0 on the empty list
and min/max/arithmetic-mean/length on any non-empty list, and on non-negative
series `get_summary` excludes exactly the values equal to the unavailable
sentinel 0 from the CPU, memory and FPS series before aggregating. -/
theorem calculate_stats_and_summary_filter (v : Rat) (vs : List Rat)
    (pd : List PerformanceData)
    (hcpu : ∀ d ∈ pd, 0 ≤ d.cpu_usage)
    (hmem : ∀ d ∈ pd, 0 ≤ d.memory_usage)
    (hfps : ∀ d ∈ pd, 0 ≤ d.fps) :
    calculate_stats [] = ⟨0, 0, 0, 0⟩ ∧
    (calculate_stats (v :: vs)).min ∈ v :: vs ∧
    (∀ x ∈ v :: vs, (calculate_stats (v :: vs)).min ≤ x) ∧
    (calculate_stats (v :: vs)).max ∈ v :: vs ∧
    (∀ x ∈ v :: vs, x ≤ (calculate_stats (v :: vs)).max) ∧
    (calculate_stats (v :: vs)).avg = (v :: vs).sum / ((v :: vs).length : Rat) ∧
    (calculate_stats (v :: vs)).count = (v :: vs).length ∧
    get_summary_cpu_values pd
      = (pd.map (fun d => d.cpu_usage)).filter (fun x => decide (¬ x = 0)) ∧
    get_summary_memory_values pd
      = (pd.map (fun d => d.memory_usage)).filter (fun x => decide (¬ x = 0)) ∧
    get_summary_fps_values pd
      = (pd.map (fun d => d.fps)).filter (fun x => decide (¬ x = 0)) := by
  refine ⟨rfl, foldl_min_mem vs v, fun x hx => foldl_min_le vs v x hx,
    foldl_max_mem vs v, fun x hx => foldl_max_ge vs v x hx, rfl, rfl,
    filter_pos_map_eq _ pd hcpu, filter_pos_map_eq _ pd hmem,
    filter_pos_map_eq _ pd hfps⟩

/-- Witness for C7: `stats([10,20,30])` together with a two-sample series in
which exactly the zero sentinel entries are dropped. -/
theorem calculate_stats_and_summary_filter_witness :
    calculate_stats [] = ⟨0, 0, 0, 0⟩ ∧
    (calculate_stats ((10 : Rat) :: [20, 30])).min ∈ (10 : Rat) :: [20, 30] ∧
    (∀ x ∈ (10 : Rat) :: [20, 30], (calculate_stats ((10 : Rat) :: [20, 30])).min ≤ x) ∧
    (calculate_stats ((10 : Rat) :: [20, 30])).max ∈ (10 : Rat) :: [20, 30] ∧
    (∀ x ∈ (10 : Rat) :: [20, 30], x ≤ (calculate_stats ((10 : Rat) :: [20, 30])).max) ∧
    (calculate_stats ((10 : Rat) :: [20, 30])).avg
      = ((10 : Rat) :: [20, 30]).sum / (((10 : Rat) :: [20, 30]).length : Rat) ∧
    (calculate_stats ((10 : Rat) :: [20, 30])).count = ((10 : Rat) :: [20, 30]).length ∧
    get_summary_cpu_values [{ cpu_usage := 0 }, { cpu_usage := 42 }]
      = (([{ cpu_usage := 0 }, { cpu_usage := 42 }] : List PerformanceData).map
          (fun d => d.cpu_usage)).filter (fun x => decide (¬ x = 0)) ∧
    get_summary_memory_values [{ cpu_usage := 0 }, { cpu_usage := 42 }]
      = (([{ cpu_usage := 0 }, { cpu_usage := 42 }] : List PerformanceData).map
          (fun d => d.memory_usage)).filter (fun x => decide (¬ x = 0)) ∧
    get_summary_fps_values [{ cpu_usage := 0 }, { cpu_usage := 42 }]
      = (([{ cpu_usage := 0 }, { cpu_usage := 42 }] : List PerformanceData).map
          (fun d => d.fps)).filter (fun x => decide (¬ x = 0)) :=
  calculate_stats_and_summary_filter 10 [20, 30]
    [{ cpu_usage := 0 }, { cpu_usage := 42 }]
    (by intro d hd; fin_cases hd <;> norm_num)
    (by intro d hd; fin_cases hd <;> norm_num)
    (by intro d hd; fin_cases hd <;> norm_num)

/-- Every retained frame duration is strictly positive. -/
theorem frame_times_loop_pos (ls : List GfxLine) :
    ∀ (flag : Bool) (acc : List Rat), (∀ x ∈ acc, 0 < x) →
      ∀ x ∈ frame_times_loop ls flag acc, 0 < x := by
  induction ls with
  | nil => intro flag acc hacc; exact hacc
  | cons l ls ih =>
      intro flag acc hacc
      cases l with
      | header => exact ih true acc hacc
      | value v =>
          simp only [frame_times_loop]
          by_cases hv : flag ∧ 0 < v
          · have hacc2 : ∀ x ∈ acc ++ [v], 0 < x := by
              intro x hx
              rcases List.mem_append.mp hx with hx' | hx'
              · exact hacc x hx'
              · simp only [List.mem_singleton] at hx'
                exact hx' ▸ hv.2
            rw [if_pos hv]
            by_cases hlen : 120 ≤ (acc ++ [v]).length
            · rw [if_pos hlen]; exact hacc2
            · rw [if_neg hlen]; exact ih flag _ hacc2
          · rw [if_neg hv]
            by_cases hlen : 120 ≤ acc.length
            · rw [if_pos hlen]; exact hacc
            · rw [if_neg hlen]; exact ih flag acc hacc
      | junk =>
          simp only [frame_times_loop]
          by_cases hlen : 120 ≤ acc.length
          · rw [if_pos hlen]; exact hacc
          · rw [if_neg hlen]; exact ih flag acc hacc

/-- At most 120 frame durations are ever retained. -/
theorem frame_times_loop_length (ls : List GfxLine) :
    ∀ (flag : Bool) (acc : List Rat), acc.length < 120 →
      (frame_times_loop ls flag acc).length ≤ 120 := by
  induction ls with
  | nil => intro flag acc hacc; exact hacc.le
  | cons l ls ih =>
      intro flag acc hacc
      cases l with
      | header => exact ih true acc hacc
      | value v =>
          simp only [frame_times_loop]
          by_cases hv : flag ∧ 0 < v
          · rw [if_pos hv]
            by_cases hlen : 120 ≤ (acc ++ [v]).length
            · rw [if_pos hlen]
              simp only [List.length_append, List.length_singleton]
              omega
            · rw [if_neg hlen]
              exact ih flag _ (by omega)
          · rw [if_neg hv]
            by_cases hlen : 120 ≤ acc.length
            · rw [if_pos hlen]; exact hacc.le
            · rw [if_neg hlen]; exact ih flag acc hacc
      | junk =>
          simp only [frame_times_loop]
          rw [if_neg (by omega : ¬ 120 ≤ acc.length)]
          exact ih flag acc hacc

/-- C8: whenever at least one frame-render duration is retained, `collect_fps`
returns `1000` divided by the mean of the most recent at-most-60 of the
at-most-120 retained durations, clamped to at most 60; with nothing retained
it returns `0.0`. -/
theorem collect_fps_spec (lines : List GfxLine)
    (h : frame_times_loop lines false [] ≠ []) :
    (frame_times_loop lines false []).length ≤ 120 ∧
    ((frame_times_loop lines false []).drop
        ((frame_times_loop lines false []).length - 60)).length ≤ 60 ∧
    collect_fps lines
      = min (1000 / (((frame_times_loop lines false []).drop
            ((frame_times_loop lines false []).length - 60)).sum
          / ((((frame_times_loop lines false []).drop
            ((frame_times_loop lines false []).length - 60)).length : Nat) : Rat))) 60 ∧
    (∀ ls : List GfxLine, frame_times_loop ls false [] = [] → collect_fps ls = 0) := by
  have hlen120 := frame_times_loop_length lines false [] (by simp)
  have hpos := frame_times_loop_pos lines false [] (by simp)
  have hlen1 : 0 < (frame_times_loop lines false []).length := List.length_pos.mpr h
  have hreclen : ((frame_times_loop lines false []).drop
      ((frame_times_loop lines false []).length - 60)).length
      = (frame_times_loop lines false []).length
        - ((frame_times_loop lines false []).length - 60) := List.length_drop _ _
  have hrecne : ((frame_times_loop lines false []).drop
      ((frame_times_loop lines false []).length - 60)) ≠ [] := by
    rw [← List.length_pos, hreclen]; omega
  have hrecpos : ∀ x ∈ (frame_times_loop lines false []).drop
      ((frame_times_loop lines false []).length - 60), 0 < x :=
    fun x hx => hpos x (List.mem_of_mem_drop hx)
  have hsum : 0 < ((frame_times_loop lines false []).drop
      ((frame_times_loop lines false []).length - 60)).sum :=
    List.sum_pos _ hrecpos hrecne
  have havg : 0 < ((frame_times_loop lines false []).drop
        ((frame_times_loop lines false []).length - 60)).sum
      / ((((frame_times_loop lines false []).drop
        ((frame_times_loop lines false []).length - 60)).length : Nat) : Rat) := by
    apply div_pos hsum
    rw [hreclen]
    exact_mod_cast show 0 < (frame_times_loop lines false []).length
        - ((frame_times_loop lines false []).length - 60) by omega
  refine ⟨hlen120, by rw [hreclen]; omega, ?_, ?_⟩
  · rw [collect_fps]
    simp only [if_neg h, if_pos havg]
  · intro ls hls
    rw [collect_fps]
    simp [hls]

/-- Witness for C8: a header followed by two frame durations of 10 ms and
30 ms retains `[10, 30]` and reports `min (1000 / 20) 60 = 50`. -/
theorem collect_fps_spec_witness :
    (frame_times_loop [.header, .value 10, .value 30] false []).length ≤ 120 ∧
    ((frame_times_loop [.header, .value 10, .value 30] false []).drop
        ((frame_times_loop [.header, .value 10, .value 30] false []).length - 60)).length
      ≤ 60 ∧
    collect_fps [.header, .value 10, .value 30]
      = min (1000 / (((frame_times_loop [.header, .value 10, .value 30] false []).drop
            ((frame_times_loop [.header, .value 10, .value 30] false []).length - 60)).sum
          / ((((frame_times_loop [.header, .value 10, .value 30] false []).drop
            ((frame_times_loop [.header, .value 10, .value 30] false []).length - 60)).length
              : Nat) : Rat))) 60 ∧
    (∀ ls : List GfxLine, frame_times_loop ls false [] = [] → collect_fps ls = 0) :=
  collect_fps_spec [.header, .value 10, .value 30] (by decide)

/-- C9: starting while already running is a no-op (no second loop starts),
stopping while idle is a no-op, and a second stop in a row changes nothing —
all modelled as total functions, so none of these calls can raise. -/
theorem scheduler_start_stop_idempotent (s t : CollectorCtl)
    (hs : s.is_collecting = true) (ht : t.is_collecting = false) :
    start_continuous_collection s = s ∧
    (start_continuous_collection s).loops_started = s.loops_started ∧
    stop_continuous_collection t = t ∧
    stop_continuous_collection (stop_continuous_collection s)
      = stop_continuous_collection s := by
  have h1 : start_continuous_collection s = s := by
    rw [start_continuous_collection, if_pos hs]
  refine ⟨h1, by rw [h1], ?_, rfl⟩
  cases t with
  | mk c n =>
      cases ht
      rfl

/-- Witness for C9 on concrete running and idle states. -/
theorem scheduler_start_stop_idempotent_witness :
    start_continuous_collection ⟨true, 1⟩ = ⟨true, 1⟩ ∧
    (start_continuous_collection ⟨true, 1⟩).loops_started
      = (⟨true, 1⟩ : CollectorCtl).loops_started ∧
    stop_continuous_collection ⟨false, 1⟩ = ⟨false, 1⟩ ∧
    stop_continuous_collection (stop_continuous_collection ⟨true, 1⟩)
      = stop_continuous_collection ⟨true, 1⟩ :=
  scheduler_start_stop_idempotent ⟨true, 1⟩ ⟨false, 1⟩ rfl rfl

end DTing
